import Mathlib

/-!
Shallow embedding of `src/Black_Scholes.py`: the Black–Scholes pricer
`black_scholes`, the intrinsic-value calculator `option_payoff`, and the
driver script that builds a grid of 100 spot prices and evaluates both
functions over it.

Numeric code is modelled over `ℝ`.  The external collaborator
`scipy.stats.norm.cdf` (the standard normal CDF) is embedded as the
integral of the standard normal density.  A Python `ValueError` is
modelled by `Except.error`.
-/

open MeasureTheory intervalIntegral Real Set Filter

/-- Standard normal probability density, the density behind `scipy.stats.norm.cdf`. -/
noncomputable def stdNormalPDF (x : ℝ) : ℝ :=
  (Real.sqrt (2 * Real.pi))⁻¹ * Real.exp (-(x ^ 2) / 2)

/-- Standard normal cumulative distribution function: the embedding of the
external collaborator `scipy.stats.norm.cdf`. -/
noncomputable def normalCDF (x : ℝ) : ℝ :=
  ∫ t in Set.Iic x, stdNormalPDF t

/-- The string literal `"call"` used by the source for dispatch. -/
def callStr : String := "call"

/-- The string literal `"put"` used by the source for dispatch. -/
def putStr : String := "put"

/-- The message of the `ValueError` raised by both source functions. -/
def invalidOptionTypeMsg : String := "option_type must be call or put"

/-- Embedding of `d1` as computed on lines 30-32 of the source:
`(np.log(S / K) + (r + 0.5 * sigma ** 2) * T) / (sigma * np.sqrt(T))`. -/
noncomputable def bs_d1 (S K T r sigma : ℝ) : ℝ :=
  (Real.log (S / K) + (r + 0.5 * sigma ^ 2) * T) / (sigma * Real.sqrt T)

/-- Embedding of `d2 = d1 - sigma * np.sqrt(T)` (line 33 of the source). -/
noncomputable def bs_d2 (S K T r sigma : ℝ) : ℝ :=
  bs_d1 S K T r sigma - sigma * Real.sqrt T

/-- Embedding of `black_scholes` (source lines 6-48).  The `option_type`
parameter defaults to `"call"` exactly as in the Python signature; the
unknown-tag branch raises `ValueError`, modelled as `Except.error`. -/
noncomputable def black_scholes (S K T r sigma : ℝ)
    (option_type : String := callStr) : Except String ℝ :=
  if option_type = callStr then
    Except.ok (S * normalCDF (bs_d1 S K T r sigma)
      - K * Real.exp (-r * T) * normalCDF (bs_d2 S K T r sigma))
  else if option_type = putStr then
    Except.ok (K * Real.exp (-r * T) * normalCDF (-(bs_d2 S K T r sigma))
      - S * normalCDF (-(bs_d1 S K T r sigma)))
  else
    Except.error invalidOptionTypeMsg

/-- Embedding of `option_payoff` (source lines 51-60) applied to a scalar
spot price: `np.maximum(S - K, 0)` for a call, `np.maximum(K - S, 0)` for a
put, `ValueError` otherwise. -/
noncomputable def option_payoff (S K : ℝ)
    (option_type : String := callStr) : Except String ℝ :=
  if option_type = callStr then
    Except.ok (max (S - K) 0)
  else if option_type = putStr then
    Except.ok (max (K - S) 0)
  else
    Except.error invalidOptionTypeMsg

/-- Embedding of `option_payoff` applied to a vector of spot prices:
`np.maximum` broadcasts element-wise over the array, modelled by `List.map`. -/
noncomputable def option_payoff_vec (S : List ℝ) (K : ℝ)
    (option_type : String := callStr) : Except String (List ℝ) :=
  if option_type = callStr then
    Except.ok (S.map (fun s => max (s - K) 0))
  else if option_type = putStr then
    Except.ok (S.map (fun s => max (K - s) 0))
  else
    Except.error invalidOptionTypeMsg

/-- Driver constant `K = 100` (source line 68). -/
noncomputable def driverK : ℝ := 100

/-- Driver constant `T = 1.0` (source line 69). -/
noncomputable def driverT : ℝ := 1.0

/-- Driver constant `r = 0.05` (source line 70). -/
noncomputable def driverR : ℝ := 0.05

/-- Driver constant `sigma = 0.20` (source line 71). -/
noncomputable def driverSigma : ℝ := 0.20

/-- Driver constant `option_type = "call"` (source line 72). -/
def driverOptionType : String := "call"

/-- Embedding of `S = np.linspace(50, 150, 100)` (source line 67):
100 evenly spaced samples whose `i`-th element is
`50 + i * (150 - 50) / (100 - 1)`, endpoints included. -/
noncomputable def S_grid : List ℝ :=
  (List.range 100).map (fun (i : ℕ) => 50 + (i : ℝ) * ((150 - 50) / (100 - 1)))

/-- Embedding of the driver's price curve (source lines 78-81): one call of
`black_scholes` per element of `S_grid`. -/
noncomputable def prices : List (Except String ℝ) :=
  S_grid.map (fun s => black_scholes s driverK driverT driverR driverSigma driverOptionType)

/-- Embedding of the driver's payoff curve (source line 83): a single
vectorized call of `option_payoff` on the whole grid. -/
noncomputable def payoffs : Except String (List ℝ) :=
  option_payoff_vec S_grid driverK driverOptionType

/-- The string literal `"straddle"` used by the specification as a sample
invalid option type. -/
def straddleStr : String := "straddle"

/-! Branch-evaluation lemmas for the two source functions. -/

lemma black_scholes_call_eq (S K T r sigma : ℝ) :
    black_scholes S K T r sigma callStr
      = Except.ok (S * normalCDF (bs_d1 S K T r sigma)
          - K * Real.exp (-r * T) * normalCDF (bs_d2 S K T r sigma)) := by
  rw [black_scholes, if_pos rfl]

lemma black_scholes_put_eq (S K T r sigma : ℝ) :
    black_scholes S K T r sigma putStr
      = Except.ok (K * Real.exp (-r * T) * normalCDF (-(bs_d2 S K T r sigma))
          - S * normalCDF (-(bs_d1 S K T r sigma))) := by
  rw [black_scholes, if_neg (by decide), if_pos rfl]

lemma black_scholes_error_eq (S K T r sigma : ℝ) (ot : String)
    (hc : ot ≠ callStr) (hp : ot ≠ putStr) :
    black_scholes S K T r sigma ot = Except.error invalidOptionTypeMsg := by
  rw [black_scholes, if_neg hc, if_neg hp]

lemma option_payoff_call_eq (S K : ℝ) :
    option_payoff S K callStr = Except.ok (max (S - K) 0) := by
  rw [option_payoff, if_pos rfl]

lemma option_payoff_put_eq (S K : ℝ) :
    option_payoff S K putStr = Except.ok (max (K - S) 0) := by
  rw [option_payoff, if_neg (by decide), if_pos rfl]

lemma option_payoff_error_eq (S K : ℝ) (ot : String)
    (hc : ot ≠ callStr) (hp : ot ≠ putStr) :
    option_payoff S K ot = Except.error invalidOptionTypeMsg := by
  rw [option_payoff, if_neg hc, if_neg hp]

lemma option_payoff_vec_call_eq (S : List ℝ) (K : ℝ) :
    option_payoff_vec S K callStr = Except.ok (S.map (fun s => max (s - K) 0)) := by
  rw [option_payoff_vec, if_pos rfl]

lemma option_payoff_vec_put_eq (S : List ℝ) (K : ℝ) :
    option_payoff_vec S K putStr = Except.ok (S.map (fun s => max (K - s) 0)) := by
  rw [option_payoff_vec, if_neg (by decide), if_pos rfl]

lemma option_payoff_vec_error_eq (S : List ℝ) (K : ℝ) (ot : String)
    (hc : ot ≠ callStr) (hp : ot ≠ putStr) :
    option_payoff_vec S K ot = Except.error invalidOptionTypeMsg := by
  rw [option_payoff_vec, if_neg hc, if_neg hp]

/-! Basic facts about the embedded standard normal density and CDF. -/

lemma stdNormalPDF_eq_gaussian :
    stdNormalPDF = ProbabilityTheory.gaussianPDFReal 0 1 := by
  funext x
  simp [stdNormalPDF, ProbabilityTheory.gaussianPDFReal]

lemma stdNormalPDF_nonneg (x : ℝ) : 0 ≤ stdNormalPDF x := by
  unfold stdNormalPDF; positivity

lemma stdNormalPDF_pos (x : ℝ) : 0 < stdNormalPDF x := by
  unfold stdNormalPDF
  have h : (0:ℝ) < Real.sqrt (2 * Real.pi) := by
    apply Real.sqrt_pos.mpr; positivity
  positivity

lemma continuous_stdNormalPDF : Continuous stdNormalPDF := by
  unfold stdNormalPDF
  fun_prop

lemma integrable_stdNormalPDF : Integrable stdNormalPDF := by
  rw [stdNormalPDF_eq_gaussian]
  exact ProbabilityTheory.integrable_gaussianPDFReal 0 1

lemma integral_stdNormalPDF : ∫ x, stdNormalPDF x = 1 := by
  rw [stdNormalPDF_eq_gaussian]
  exact ProbabilityTheory.integral_gaussianPDFReal_eq_one 0 one_ne_zero

lemma stdNormalPDF_neg (x : ℝ) : stdNormalPDF (-x) = stdNormalPDF x := by
  simp [stdNormalPDF]

lemma normalCDF_sub_normalCDF (a b : ℝ) :
    normalCDF b - normalCDF a = ∫ t in a..b, stdNormalPDF t := by
  rw [normalCDF, normalCDF]
  exact integral_Iic_sub_Iic integrable_stdNormalPDF.integrableOn
    integrable_stdNormalPDF.integrableOn

lemma normalCDF_nonneg (x : ℝ) : 0 ≤ normalCDF x :=
  setIntegral_nonneg measurableSet_Iic (fun t _ => stdNormalPDF_nonneg t)

lemma normalCDF_add_Ioi (x : ℝ) :
    normalCDF x + ∫ t in Set.Ioi x, stdNormalPDF t = 1 := by
  rw [normalCDF]
  rw [integral_Iic_add_Ioi integrable_stdNormalPDF.integrableOn
    integrable_stdNormalPDF.integrableOn]
  exact integral_stdNormalPDF

lemma normalCDF_le_one (x : ℝ) : normalCDF x ≤ 1 := by
  have h := normalCDF_add_Ioi x
  have h2 : 0 ≤ ∫ t in Set.Ioi x, stdNormalPDF t :=
    setIntegral_nonneg measurableSet_Ioi (fun t _ => stdNormalPDF_nonneg t)
  linarith

lemma normalCDF_neg (x : ℝ) : normalCDF (-x) = 1 - normalCDF x := by
  have h1 : normalCDF (-x) = ∫ t in Set.Iic (-x), stdNormalPDF (-t) := by
    rw [normalCDF]
    exact setIntegral_congr_fun measurableSet_Iic (fun t _ => (stdNormalPDF_neg t).symm)
  rw [h1, integral_comp_neg_Iic, neg_neg]
  have h2 := normalCDF_add_Ioi x
  linarith

lemma normalCDF_zero : normalCDF 0 = 1 / 2 := by
  have h := normalCDF_neg 0
  rw [neg_zero] at h
  linarith

lemma monotone_normalCDF : Monotone normalCDF := by
  intro a b hab
  have h := normalCDF_sub_normalCDF a b
  have h2 : 0 ≤ ∫ t in a..b, stdNormalPDF t :=
    intervalIntegral.integral_nonneg hab (fun t _ => stdNormalPDF_nonneg t)
  linarith

lemma normalCDF_eq_add_intervalIntegral (x : ℝ) :
    normalCDF x = normalCDF 0 + ∫ t in (0:ℝ)..x, stdNormalPDF t := by
  have h := normalCDF_sub_normalCDF 0 x
  linarith

lemma hasDerivAt_normalCDF (x : ℝ) : HasDerivAt normalCDF (stdNormalPDF x) x := by
  have h : HasDerivAt (fun u => ∫ t in (0:ℝ)..u, stdNormalPDF t) (stdNormalPDF x) x :=
    intervalIntegral.integral_hasDerivAt_right
      integrable_stdNormalPDF.intervalIntegrable
      (continuous_stdNormalPDF.stronglyMeasurableAtFilter _ _)
      continuous_stdNormalPDF.continuousAt
  have h2 : HasDerivAt (fun u => normalCDF 0 + ∫ t in (0:ℝ)..u, stdNormalPDF t)
      (stdNormalPDF x) x := h.const_add _
  have h3 : (fun u => normalCDF 0 + ∫ t in (0:ℝ)..u, stdNormalPDF t) = normalCDF := by
    funext u
    rw [← normalCDF_eq_add_intervalIntegral]
  rwa [h3] at h2

lemma tendsto_normalCDF_atBot : Tendsto normalCDF atBot (nhds 0) := by
  have h : Tendsto (fun a : ℝ => ∫ t in a..(0:ℝ), stdNormalPDF t) atBot
      (nhds (∫ t in Set.Iic (0:ℝ), stdNormalPDF t)) :=
    MeasureTheory.intervalIntegral_tendsto_integral_Iic 0
      integrable_stdNormalPDF.integrableOn tendsto_id
  have h2 : Tendsto (fun a : ℝ => normalCDF 0 - ∫ t in a..(0:ℝ), stdNormalPDF t)
      atBot (nhds (normalCDF 0 - ∫ t in Set.Iic (0:ℝ), stdNormalPDF t)) :=
    (tendsto_const_nhds.sub h)
  have h3 : (fun a : ℝ => normalCDF 0 - ∫ t in a..(0:ℝ), stdNormalPDF t) = normalCDF := by
    funext a
    have := normalCDF_sub_normalCDF a 0
    linarith
  rw [h3] at h2
  have h4 : normalCDF 0 - ∫ t in Set.Iic (0:ℝ), stdNormalPDF t = 0 := by
    rw [normalCDF]; ring
  rwa [h4] at h2

lemma tendsto_normalCDF_atTop : Tendsto normalCDF atTop (nhds 1) := by
  have h : Tendsto (fun b : ℝ => ∫ t in (0:ℝ)..b, stdNormalPDF t) atTop
      (nhds (∫ t in Set.Ioi (0:ℝ), stdNormalPDF t)) :=
    MeasureTheory.intervalIntegral_tendsto_integral_Ioi 0
      integrable_stdNormalPDF.integrableOn tendsto_id
  have h2 : Tendsto (fun b : ℝ => normalCDF 0 + ∫ t in (0:ℝ)..b, stdNormalPDF t)
      atTop (nhds (normalCDF 0 + ∫ t in Set.Ioi (0:ℝ), stdNormalPDF t)) :=
    (tendsto_const_nhds.add h)
  have h3 : (fun b : ℝ => normalCDF 0 + ∫ t in (0:ℝ)..b, stdNormalPDF t) = normalCDF := by
    funext b
    exact (normalCDF_eq_add_intervalIntegral b).symm
  rw [h3] at h2
  have h4 : normalCDF 0 + ∫ t in Set.Ioi (0:ℝ), stdNormalPDF t = 1 := normalCDF_add_Ioi 0
  rwa [h4] at h2

/-! Spec-side formulas, written from the specification text of section 4.1
(for the refinement claim C1). -/

/-- Spec formula `d1 = (ln(S/K) + (r + 0.5 sigma^2) T) / (sigma sqrt(T))`. -/
noncomputable def spec_d1 (S K T r sigma : ℝ) : ℝ :=
  (Real.log (S / K) + (r + 0.5 * sigma ^ 2) * T) / (sigma * Real.sqrt T)

/-- Spec formula `d2 = d1 - sigma sqrt(T)`. -/
noncomputable def spec_d2 (S K T r sigma : ℝ) : ℝ :=
  spec_d1 S K T r sigma - sigma * Real.sqrt T

/-- Spec formula `call price = S Phi(d1) - K e^(-rT) Phi(d2)`. -/
noncomputable def spec_call_price (S K T r sigma : ℝ) : ℝ :=
  S * normalCDF (spec_d1 S K T r sigma)
    - K * Real.exp (-(r * T)) * normalCDF (spec_d2 S K T r sigma)

/-- Spec formula `put price = K e^(-rT) Phi(-d2) - S Phi(-d1)`. -/
noncomputable def spec_put_price (S K T r sigma : ℝ) : ℝ :=
  K * Real.exp (-(r * T)) * normalCDF (-(spec_d2 S K T r sigma))
    - S * normalCDF (-(spec_d1 S K T r sigma))

/-- C1: for every input, `black_scholes` returns exactly the closed-form
Black–Scholes value stated in the specification: the call branch returns
`S Phi(d1) - K e^(-rT) Phi(d2)` and the put branch returns
`K e^(-rT) Phi(-d2) - S Phi(-d1)`, with `d1` and `d2` as the specification
defines them. -/
theorem claim_C1 : ∀ S K T r sigma : ℝ,
    black_scholes S K T r sigma callStr = Except.ok (spec_call_price S K T r sigma) ∧
    black_scholes S K T r sigma putStr = Except.ok (spec_put_price S K T r sigma) := by
  intro S K T r sigma
  have hd1 : spec_d1 S K T r sigma = bs_d1 S K T r sigma := rfl
  have hd2 : spec_d2 S K T r sigma = bs_d2 S K T r sigma := rfl
  constructor
  · rw [black_scholes_call_eq, spec_call_price, hd1, hd2, neg_mul]
  · rw [black_scholes_put_eq, spec_put_price, hd1, hd2, neg_mul]

/-- C2: `option_payoff` computes, element-wise over a spot vector, the
intrinsic value `max(S-K, 0)` for a call and `max(K-S, 0)` for a put, and in
particular the three concrete examples of the specification hold. -/
theorem claim_C2 :
    (∀ (Sv : List ℝ) (K : ℝ),
      option_payoff_vec Sv K callStr = Except.ok (Sv.map (fun s => max (s - K) 0)) ∧
      option_payoff_vec Sv K putStr = Except.ok (Sv.map (fun s => max (K - s) 0))) ∧
    (∀ S K : ℝ,
      option_payoff S K callStr = Except.ok (max (S - K) 0) ∧
      option_payoff S K putStr = Except.ok (max (K - S) 0)) ∧
    option_payoff 120 100 callStr = Except.ok 20 ∧
    option_payoff 80 100 callStr = Except.ok 0 ∧
    option_payoff 80 100 putStr = Except.ok 20 := by
  refine ⟨fun Sv K => ⟨option_payoff_vec_call_eq Sv K, option_payoff_vec_put_eq Sv K⟩,
    fun S K => ⟨option_payoff_call_eq S K, option_payoff_put_eq S K⟩, ?_, ?_, ?_⟩
  · rw [option_payoff_call_eq]
    norm_num
  · rw [option_payoff_call_eq]
    norm_num
  · rw [option_payoff_put_eq]
    norm_num

lemma black_scholes_isError_iff (S K T r sigma : ℝ) (ot : String) :
    (∃ m, black_scholes S K T r sigma ot = Except.error m)
      ↔ ¬(ot = callStr ∨ ot = putStr) := by
  by_cases hc : ot = callStr
  · subst hc; simp [black_scholes_call_eq]
  · by_cases hp : ot = putStr
    · subst hp; simp [black_scholes_put_eq]
    · simp [black_scholes_error_eq S K T r sigma ot hc hp, hc, hp]

lemma option_payoff_isError_iff (S K : ℝ) (ot : String) :
    (∃ m, option_payoff S K ot = Except.error m)
      ↔ ¬(ot = callStr ∨ ot = putStr) := by
  by_cases hc : ot = callStr
  · subst hc; simp [option_payoff_call_eq]
  · by_cases hp : ot = putStr
    · subst hp; simp [option_payoff_put_eq]
    · simp [option_payoff_error_eq S K ot hc hp, hc, hp]

lemma option_payoff_vec_isError_iff (Sv : List ℝ) (K : ℝ) (ot : String) :
    (∃ m, option_payoff_vec Sv K ot = Except.error m)
      ↔ ¬(ot = callStr ∨ ot = putStr) := by
  by_cases hc : ot = callStr
  · subst hc; simp [option_payoff_vec_call_eq]
  · by_cases hp : ot = putStr
    · subst hp; simp [option_payoff_vec_put_eq]
    · simp [option_payoff_vec_error_eq Sv K ot hc hp, hc, hp]

/-- C3: each function returns a `ValueError`-style error exactly when
`option_type` is neither `"call"` nor `"put"` (in particular on
`"straddle"`), and for `"call"` or `"put"` it returns a value for any
numeric inputs. -/
theorem claim_C3 : ∀ (S K T r sigma : ℝ) (Sv : List ℝ) (ot : String),
    ((∃ m, black_scholes S K T r sigma ot = Except.error m)
      ↔ ¬(ot = callStr ∨ ot = putStr)) ∧
    ((∃ m, option_payoff S K ot = Except.error m)
      ↔ ¬(ot = callStr ∨ ot = putStr)) ∧
    ((∃ m, option_payoff_vec Sv K ot = Except.error m)
      ↔ ¬(ot = callStr ∨ ot = putStr)) ∧
    ((ot = callStr ∨ ot = putStr) →
      (∃ p, black_scholes S K T r sigma ot = Except.ok p) ∧
      (∃ p, option_payoff S K ot = Except.ok p) ∧
      (∃ l, option_payoff_vec Sv K ot = Except.ok l)) ∧
    black_scholes S K T r sigma straddleStr = Except.error invalidOptionTypeMsg ∧
    option_payoff S K straddleStr = Except.error invalidOptionTypeMsg := by
  intro S K T r sigma Sv ot
  refine ⟨black_scholes_isError_iff S K T r sigma ot,
    option_payoff_isError_iff S K ot,
    option_payoff_vec_isError_iff Sv K ot, ?_,
    black_scholes_error_eq S K T r sigma straddleStr (by decide) (by decide),
    option_payoff_error_eq S K straddleStr (by decide) (by decide)⟩
  rintro (rfl | rfl)
  · exact ⟨⟨_, black_scholes_call_eq S K T r sigma⟩,
      ⟨_, option_payoff_call_eq S K⟩, ⟨_, option_payoff_vec_call_eq Sv K⟩⟩
  · exact ⟨⟨_, black_scholes_put_eq S K T r sigma⟩,
      ⟨_, option_payoff_put_eq S K⟩, ⟨_, option_payoff_vec_put_eq Sv K⟩⟩

/-- Witness for C3, instantiated at `option_type = "call"`. -/
theorem claim_C3_witness :
    (callStr = callStr ∨ callStr = putStr) ∧
    ((∃ p, black_scholes 100 100 1 0.05 0.2 callStr = Except.ok p) ∧
     (∃ p, option_payoff 100 100 callStr = Except.ok p) ∧
     (∃ l, option_payoff_vec [100] 100 callStr = Except.ok l)) :=
  ⟨Or.inl rfl, (claim_C3 100 100 1 0.05 0.2 [100] callStr).2.2.2.1 (Or.inl rfl)⟩

/-- C4: put-call parity.  For every input, the call price minus the put
price returned by `black_scholes` equals `S - K e^(-rT)` exactly. -/
theorem claim_C4 : ∀ S K T r sigma : ℝ, ∃ c p : ℝ,
    black_scholes S K T r sigma callStr = Except.ok c ∧
    black_scholes S K T r sigma putStr = Except.ok p ∧
    c - p = S - K * Real.exp (-r * T) := by
  intro S K T r sigma
  refine ⟨_, _, black_scholes_call_eq S K T r sigma,
    black_scholes_put_eq S K T r sigma, ?_⟩
  rw [normalCDF_neg (bs_d1 S K T r sigma), normalCDF_neg (bs_d2 S K T r sigma)]
  ring

/-- C9: every payoff value produced by `option_payoff`, scalar or
vectorized, is non-negative (clamped at 0) for both valid option types. -/
theorem claim_C9 : ∀ (Sv : List ℝ) (S K : ℝ) (ot : String),
    ot = callStr ∨ ot = putStr →
    (∃ p, option_payoff S K ot = Except.ok p ∧ 0 ≤ p) ∧
    (∃ l, option_payoff_vec Sv K ot = Except.ok l ∧ ∀ x ∈ l, 0 ≤ x) := by
  rintro Sv S K ot (rfl | rfl)
  · refine ⟨⟨_, option_payoff_call_eq S K, le_max_right _ _⟩,
      ⟨_, option_payoff_vec_call_eq Sv K, ?_⟩⟩
    intro x hx
    obtain ⟨s, _, rfl⟩ := List.mem_map.mp hx
    exact le_max_right _ _
  · refine ⟨⟨_, option_payoff_put_eq S K, le_max_right _ _⟩,
      ⟨_, option_payoff_vec_put_eq Sv K, ?_⟩⟩
    intro x hx
    obtain ⟨s, _, rfl⟩ := List.mem_map.mp hx
    exact le_max_right _ _

/-- Witness for C9, instantiated at a concrete spot vector and strike. -/
theorem claim_C9_witness :
    (callStr = callStr ∨ callStr = putStr) ∧
    ((∃ p, option_payoff 80 100 callStr = Except.ok p ∧ 0 ≤ p) ∧
     (∃ l, option_payoff_vec [120, 80] 100 callStr = Except.ok l ∧ ∀ x ∈ l, 0 ≤ x)) :=
  ⟨Or.inl rfl, claim_C9 [120, 80] 80 100 callStr (Or.inl rfl)⟩

/-- C10: omitting the `option_type` argument is the same as passing
`"call"`, for both functions, on every input. -/
theorem claim_C10 : ∀ S K T r sigma : ℝ,
    black_scholes S K T r sigma = black_scholes S K T r sigma callStr ∧
    option_payoff S K = option_payoff S K callStr :=
  fun _ _ _ _ _ => ⟨rfl, rfl⟩

/-! Driver grid lemmas. -/

lemma S_grid_length : S_grid.length = 100 := by
  rw [S_grid, List.length_map, List.length_range]

lemma S_grid_getElem (i : ℕ) (h : i < 100) :
    S_grid[i]? = some (50 + (i : ℝ) * (100 / 99)) := by
  rw [S_grid, List.getElem?_map, List.getElem?_range h]
  norm_num

/-- C5: the driver builds 100 uniformly spaced spot prices from 50 to 150
(step `100/99`), fixes `K = 100`, `T = 1.0`, `r = 0.05`, `sigma = 0.20`,
`option_type = "call"`, maps `black_scholes` over the grid to get the price
curve, and makes one vectorized `option_payoff` call for the payoff curve. -/
theorem claim_C5 :
    S_grid.length = 100 ∧
    (∀ i : Fin 100, S_grid[(i : ℕ)]? = some (50 + ((i : ℕ) : ℝ) * (100 / 99))) ∧
    S_grid.head? = some 50 ∧
    S_grid.getLast? = some 150 ∧
    (∀ i : ℕ, i + 1 < 100 → ∀ a b : ℝ,
      S_grid[i]? = some a → S_grid[i + 1]? = some b → b - a = 100 / 99) ∧
    driverK = 100 ∧ driverT = 1.0 ∧ driverR = 0.05 ∧ driverSigma = 0.20 ∧
    driverOptionType = callStr ∧
    prices = S_grid.map
      (fun s => black_scholes s driverK driverT driverR driverSigma driverOptionType) ∧
    prices.length = 100 ∧
    payoffs = option_payoff_vec S_grid driverK driverOptionType := by
  refine ⟨S_grid_length, fun i => S_grid_getElem i i.isLt, ?_, ?_, ?_,
    rfl, rfl, rfl, rfl, rfl, rfl, ?_, rfl⟩
  · rw [List.head?_eq_getElem?, S_grid_getElem 0 (by norm_num)]
    norm_num
  · rw [List.getLast?_eq_getElem?, S_grid_length,
      show (100 : ℕ) - 1 = 99 from rfl, S_grid_getElem 99 (by norm_num)]
    norm_num
  · intro i hi a b ha hb
    rw [S_grid_getElem i (by omega)] at ha
    rw [S_grid_getElem (i + 1) hi] at hb
    have ha2 : a = 50 + (i : ℝ) * (100 / 99) := (Option.some_inj.mp ha).symm
    have hb2 : b = 50 + ((i : ℕ) + 1 : ℝ) * (100 / 99) := by
      have := (Option.some_inj.mp hb).symm
      rwa [Nat.cast_add, Nat.cast_one] at this
    rw [ha2, hb2]
    ring
  · rw [prices, List.length_map, S_grid_length]

/-- Witness for C5: the uniform-spacing conjunct applied at index 3. -/
theorem claim_C5_witness :
    (3 + 1 < 100 ∧ S_grid[3]? = some (50 + (3 : ℝ) * (100 / 99)) ∧
      S_grid[3 + 1]? = some (50 + (4 : ℝ) * (100 / 99))) ∧
    (50 + (4 : ℝ) * (100 / 99)) - (50 + (3 : ℝ) * (100 / 99)) = 100 / 99 := by
  have h3 : S_grid[3]? = some (50 + (3 : ℝ) * (100 / 99)) := by
    rw [S_grid_getElem 3 (by norm_num)]
    norm_num
  have h4 : S_grid[3 + 1]? = some (50 + (4 : ℝ) * (100 / 99)) := by
    rw [S_grid_getElem 4 (by norm_num)]
    norm_num
  exact ⟨⟨by norm_num, h3, h4⟩,
    claim_C5.2.2.2.2.1 3 (by norm_num) _ _ h3 h4⟩

/-- C7: the price curve and the payoff curve are indexed by the same ordered
spot grid: both have length 100 and, at every index `i`, the `i`-th price
and the `i`-th payoff are the values of `black_scholes` and of the payoff
formula at the same `i`-th spot price. -/
theorem claim_C7 : ∃ pl : List ℝ,
    payoffs = Except.ok pl ∧
    prices.length = S_grid.length ∧
    pl.length = S_grid.length ∧
    S_grid.length = 100 ∧
    ∀ i : Fin 100, ∃ s : ℝ, S_grid[(i : ℕ)]? = some s ∧
      prices[(i : ℕ)]? =
        some (black_scholes s driverK driverT driverR driverSigma driverOptionType) ∧
      pl[(i : ℕ)]? = some (max (s - driverK) 0) := by
  refine ⟨S_grid.map (fun s => max (s - driverK) 0), ?_, ?_, ?_, S_grid_length, ?_⟩
  · rw [payoffs, show driverOptionType = callStr from rfl, option_payoff_vec_call_eq]
  · rw [prices, List.length_map]
  · rw [List.length_map]
  · intro i
    refine ⟨50 + ((i : ℕ) : ℝ) * (100 / 99), S_grid_getElem i i.isLt, ?_, ?_⟩
    · rw [prices, List.getElem?_map, S_grid_getElem i i.isLt]
      rfl
    · rw [List.getElem?_map, S_grid_getElem i i.isLt]
      rfl

/-! Analytic groundwork for the no-arbitrage lower bound (C6). -/

lemma stdNormalPDF_shift (tau m : ℝ) (htau : tau ≠ 0) :
    stdNormalPDF (-(tau / 2) - m / tau)
      = Real.exp (-m) * stdNormalPDF (tau / 2 - m / tau) := by
  unfold stdNormalPDF
  rw [mul_comm (Real.exp (-m)), mul_assoc, ← Real.exp_add]
  congr 1
  field_simp
  ring

lemma put_core_nonneg (tau : ℝ) (htau : 0 < tau) (m : ℝ) :
    normalCDF (-(tau / 2) - m / tau) ≤ Real.exp (-m) * normalCDF (tau / 2 - m / tau) := by
  set f : ℝ → ℝ := fun y => Real.exp (-y) * normalCDF (tau / 2 - y / tau)
      - normalCDF (-(tau / 2) - y / tau) with hf
  have hderiv : ∀ x : ℝ,
      HasDerivAt f (-(Real.exp (-x) * normalCDF (tau / 2 - x / tau))) x := by
    intro x
    have hneg : HasDerivAt (fun y : ℝ => -y) (-1) x := (hasDerivAt_id x).neg
    have hexp : HasDerivAt (fun y : ℝ => Real.exp (-y)) (Real.exp (-x) * -1) x := hneg.exp
    have hdiv : HasDerivAt (fun y : ℝ => y / tau) (1 / tau) x := by
      simpa using (hasDerivAt_id x).div_const tau
    have hin1 : HasDerivAt (fun y : ℝ => tau / 2 - y / tau) (-(1 / tau)) x :=
      hdiv.const_sub (tau / 2)
    have hin2 : HasDerivAt (fun y : ℝ => -(tau / 2) - y / tau) (-(1 / tau)) x :=
      hdiv.const_sub (-(tau / 2))
    have hphi1 : HasDerivAt (fun y : ℝ => normalCDF (tau / 2 - y / tau))
        (stdNormalPDF (tau / 2 - x / tau) * -(1 / tau)) x := by
      have h := (hasDerivAt_normalCDF (tau / 2 - x / tau)).comp x hin1
      simpa [Function.comp] using h
    have hphi2 : HasDerivAt (fun y : ℝ => normalCDF (-(tau / 2) - y / tau))
        (stdNormalPDF (-(tau / 2) - x / tau) * -(1 / tau)) x := by
      have h := (hasDerivAt_normalCDF (-(tau / 2) - x / tau)).comp x hin2
      simpa [Function.comp] using h
    have hsub := (hexp.mul hphi1).sub hphi2
    convert hsub using 1
    rw [stdNormalPDF_shift tau x htau.ne']
    ring
  have hanti : Antitone f := by
    apply antitone_of_deriv_nonpos (fun x => (hderiv x).differentiableAt)
    intro x
    rw [(hderiv x).deriv]
    have h1 : 0 ≤ Real.exp (-x) * normalCDF (tau / 2 - x / tau) :=
      mul_nonneg (Real.exp_nonneg _) (normalCDF_nonneg _)
    linarith
  have hlim1 : Tendsto (fun y : ℝ => Real.exp (-y) * normalCDF (tau / 2 - y / tau))
      atTop (nhds 0) := by
    apply tendsto_of_tendsto_of_tendsto_of_le_of_le
      (tendsto_const_nhds : Tendsto (fun _ : ℝ => (0:ℝ)) atTop (nhds 0))
      Real.tendsto_exp_neg_atTop_nhds_zero
    · intro y
      exact mul_nonneg (Real.exp_nonneg _) (normalCDF_nonneg _)
    · intro y
      calc Real.exp (-y) * normalCDF (tau / 2 - y / tau)
          ≤ Real.exp (-y) * 1 :=
            mul_le_mul_of_nonneg_left (normalCDF_le_one _) (Real.exp_nonneg _)
        _ = Real.exp (-y) := mul_one _
  have hlin : Tendsto (fun y : ℝ => -(tau / 2) - y / tau) atTop atBot := by
    have h1 : Tendsto (fun y : ℝ => y / tau) atTop atTop :=
      tendsto_id.atTop_div_const htau
    have h2 : Tendsto (fun y : ℝ => -(y / tau)) atTop atBot :=
      tendsto_neg_atTop_atBot.comp h1
    have h3 := tendsto_atBot_add_const_left atTop (-(tau / 2)) h2
    refine h3.congr fun y => ?_
    ring
  have hlim2 : Tendsto (fun y : ℝ => normalCDF (-(tau / 2) - y / tau))
      atTop (nhds 0) := tendsto_normalCDF_atBot.comp hlin
  have hlim : Tendsto f atTop (nhds 0) := by
    have h := hlim1.sub hlim2
    simpa [hf] using h
  have h := hanti.le_of_tendsto hlim m
  have h2 : (0:ℝ) ≤ Real.exp (-m) * normalCDF (tau / 2 - m / tau)
      - normalCDF (-(tau / 2) - m / tau) := h
  linarith

lemma call_value_bounds (S K T r sigma : ℝ)
    (hS : 0 < S) (hK : 0 < K) (hT : 0 < T) (hs : 0 < sigma) :
    max (S - K * Real.exp (-r * T)) 0
      ≤ S * normalCDF (bs_d1 S K T r sigma)
        - K * Real.exp (-r * T) * normalCDF (bs_d2 S K T r sigma) := by
  obtain ⟨u, hupos, rfl⟩ : ∃ u : ℝ, 0 < u ∧ u * u = T :=
    ⟨Real.sqrt T, Real.sqrt_pos.mpr hT, Real.mul_self_sqrt hT.le⟩
  have hsqrt : Real.sqrt (u * u) = u := Real.sqrt_mul_self hupos.le
  have hτ : 0 < sigma * u := mul_pos hs hupos
  have hd1 : bs_d1 S K (u * u) r sigma
      = (Real.log (S / K) + r * (u * u)) / (sigma * u) + sigma * u / 2 := by
    rw [bs_d1, hsqrt]
    field_simp
    ring
  have hd2 : bs_d2 S K (u * u) r sigma
      = (Real.log (S / K) + r * (u * u)) / (sigma * u) - sigma * u / 2 := by
    rw [bs_d2, hd1, hsqrt]
    ring
  set τ : ℝ := sigma * u with hτdef
  set m : ℝ := Real.log (S / K) + r * (u * u) with hmdef
  have hKm : K * Real.exp (-r * (u * u)) = S * Real.exp (-m) := by
    rw [hmdef, neg_add, Real.exp_add, neg_mul]
    have hlog : Real.exp (-Real.log (S / K)) = K / S := by
      rw [Real.exp_neg, Real.exp_log (div_pos hS hK), inv_div]
    rw [hlog]
    field_simp
  rw [hd1, hd2, hKm]
  set a : ℝ := normalCDF (m / τ + τ / 2) with hadef
  set b : ℝ := normalCDF (m / τ - τ / 2) with hbdef
  have hA1 : 1 - a ≤ Real.exp (-m) * (1 - b) := by
    have h := put_core_nonneg τ hτ m
    have e2 : τ / 2 - m / τ = -(m / τ - τ / 2) := by ring
    have e3 : -(τ / 2) - m / τ = -(m / τ + τ / 2) := by ring
    rw [e2, e3, normalCDF_neg, normalCDF_neg] at h
    exact h
  have hB1 : b ≤ Real.exp m * a := by
    have h := put_core_nonneg τ hτ (-m)
    have e4 : -(τ / 2) - -m / τ = m / τ - τ / 2 := by ring
    have e5 : τ / 2 - -m / τ = m / τ + τ / 2 := by ring
    rw [e4, e5, neg_neg] at h
    exact h
  have hEb : Real.exp (-m) * b ≤ a := by
    have h := mul_le_mul_of_nonneg_left hB1 (Real.exp_nonneg (-m))
    rwa [← mul_assoc, ← Real.exp_add, neg_add_cancel, Real.exp_zero, one_mul] at h
  rw [max_le_iff]
  constructor
  · nlinarith [mul_le_mul_of_nonneg_left hA1 hS.le]
  · nlinarith [mul_le_mul_of_nonneg_left hEb hS.le]

/-- C6: the no-arbitrage lower bound.  For positive `S`, `K`, `T`, `sigma`
and any rate `r`, the call price returned by `black_scholes` is at least
`max (S - K e^(-rT)) 0`. -/
theorem claim_C6 : ∀ S K T r sigma : ℝ,
    0 < S → 0 < K → 0 < T → 0 < sigma →
    ∃ c : ℝ, black_scholes S K T r sigma callStr = Except.ok c ∧
      max (S - K * Real.exp (-r * T)) 0 ≤ c := by
  intro S K T r sigma hS hK hT hs
  exact ⟨_, black_scholes_call_eq S K T r sigma,
    call_value_bounds S K T r sigma hS hK hT hs⟩

/-- Witness for C6 at `S = 100`, `K = 100`, `T = 1`, `r = 0.05`,
`sigma = 0.2`. -/
theorem claim_C6_witness :
    (0 < (100:ℝ) ∧ 0 < (100:ℝ) ∧ 0 < (1:ℝ) ∧ 0 < (0.2:ℝ)) ∧
    (∃ c : ℝ, black_scholes 100 100 1 0.05 0.2 callStr = Except.ok c ∧
      max (100 - 100 * Real.exp (-0.05 * 1)) 0 ≤ c) :=
  ⟨⟨by norm_num, by norm_num, by norm_num, by norm_num⟩,
    claim_C6 100 100 1 0.05 0.2 (by norm_num) (by norm_num) (by norm_num) (by norm_num)⟩

/-! Rigorous numeric bounds for the reference-value claim (C8). -/

lemma exp_neg_series_bounds (y : ℝ) (h0 : 0 ≤ y) (h1 : y ≤ 1) :
    1 - y + y ^ 2 / 2 - y ^ 3 / 6 - y ^ 4 * (5 / 96) ≤ Real.exp (-y) ∧
    Real.exp (-y) ≤ 1 - y + y ^ 2 / 2 - y ^ 3 / 6 + y ^ 4 * (5 / 96) := by
  have habs : |(-y : ℝ)| ≤ 1 := by rwa [abs_neg, abs_of_nonneg h0]
  have h := @Real.exp_bound (-y) habs 4 (by norm_num)
  have hsum : ∑ m ∈ Finset.range 4, (-y) ^ m / (Nat.factorial m : ℝ)
      = 1 - y + y ^ 2 / 2 - y ^ 3 / 6 := by
    rw [Finset.sum_range_succ, Finset.sum_range_succ, Finset.sum_range_succ,
      Finset.sum_range_one]
    norm_num [Nat.factorial]
    ring
  rw [hsum, abs_neg, abs_of_nonneg h0] at h
  norm_num [Nat.factorial] at h
  rw [abs_le] at h
  constructor <;> linarith [h.1, h.2]

lemma sqrt_two_pi_lb : (2.506627 : ℝ) < Real.sqrt (2 * Real.pi) := by
  rw [Real.lt_sqrt (by norm_num)]
  nlinarith [Real.pi_gt_d6]

lemma sqrt_two_pi_ub : Real.sqrt (2 * Real.pi) < 2.506629 := by
  rw [Real.sqrt_lt' (by norm_num)]
  nlinarith [Real.pi_lt_d6]

lemma exp_negsq_lower (t : ℝ) (h1 : t ^ 2 / 2 ≤ 1) :
    1 - t ^ 2 / 2 + t ^ 4 / 8 - t ^ 6 / 48 + -(5 / 1536) * t ^ 8
      ≤ Real.exp (-(t ^ 2) / 2) := by
  have h := (exp_neg_series_bounds (t ^ 2 / 2) (by positivity) h1).1
  calc 1 - t ^ 2 / 2 + t ^ 4 / 8 - t ^ 6 / 48 + -(5 / 1536) * t ^ 8
      = 1 - t ^ 2 / 2 + (t ^ 2 / 2) ^ 2 / 2 - (t ^ 2 / 2) ^ 3 / 6
        - (t ^ 2 / 2) ^ 4 * (5 / 96) := by ring
    _ ≤ Real.exp (-(t ^ 2 / 2)) := h
    _ = Real.exp (-(t ^ 2) / 2) := by rw [neg_div]

lemma exp_negsq_upper (t : ℝ) (h1 : t ^ 2 / 2 ≤ 1) :
    Real.exp (-(t ^ 2) / 2)
      ≤ 1 - t ^ 2 / 2 + t ^ 4 / 8 - t ^ 6 / 48 + 5 / 1536 * t ^ 8 := by
  have h := (exp_neg_series_bounds (t ^ 2 / 2) (by positivity) h1).2
  calc Real.exp (-(t ^ 2) / 2)
      = Real.exp (-(t ^ 2 / 2)) := by rw [neg_div]
    _ ≤ 1 - t ^ 2 / 2 + (t ^ 2 / 2) ^ 2 / 2 - (t ^ 2 / 2) ^ 3 / 6
        + (t ^ 2 / 2) ^ 4 * (5 / 96) := h
    _ = 1 - t ^ 2 / 2 + t ^ 4 / 8 - t ^ 6 / 48 + 5 / 1536 * t ^ 8 := by ring

lemma integral_deg8_poly (a c : ℝ) :
    ∫ t in (0:ℝ)..a, (1 - t ^ 2 / 2 + t ^ 4 / 8 - t ^ 6 / 48 + c * t ^ 8)
      = a - a ^ 3 / 6 + a ^ 5 / 40 - a ^ 7 / 336 + c * a ^ 9 / 9 := by
  have hderiv : ∀ t ∈ Set.uIcc (0:ℝ) a,
      HasDerivAt (fun t : ℝ => t - t ^ 3 / 6 + t ^ 5 / 40 - t ^ 7 / 336 + c * t ^ 9 / 9)
        (1 - t ^ 2 / 2 + t ^ 4 / 8 - t ^ 6 / 48 + c * t ^ 8) t := by
    intro t _
    have h1 : HasDerivAt (fun t : ℝ => t) 1 t := hasDerivAt_id t
    have h3 := (hasDerivAt_pow 3 t).div_const 6
    have h5 := (hasDerivAt_pow 5 t).div_const 40
    have h7 := (hasDerivAt_pow 7 t).div_const 336
    have h9 := ((hasDerivAt_pow 9 t).const_mul c).div_const 9
    have h := (((h1.sub h3).add h5).sub h7).add h9
    convert h using 1
    norm_num
    ring
  have hint : IntervalIntegrable
      (fun t : ℝ => 1 - t ^ 2 / 2 + t ^ 4 / 8 - t ^ 6 / 48 + c * t ^ 8) volume 0 a := by
    apply Continuous.intervalIntegrable
    fun_prop
  rw [intervalIntegral.integral_eq_sub_of_hasDerivAt hderiv hint]
  norm_num

lemma integral_exp_negsq_lower (a : ℝ) (h0 : 0 ≤ a) (h1 : a ≤ 1) :
    a - a ^ 3 / 6 + a ^ 5 / 40 - a ^ 7 / 336 + -(5 / 1536) * a ^ 9 / 9
      ≤ ∫ t in (0:ℝ)..a, Real.exp (-(t ^ 2) / 2) := by
  have hcont : Continuous fun t : ℝ => Real.exp (-(t ^ 2) / 2) := by fun_prop
  have hintp : IntervalIntegrable
      (fun t : ℝ => 1 - t ^ 2 / 2 + t ^ 4 / 8 - t ^ 6 / 48 + -(5 / 1536) * t ^ 8)
      volume 0 a := by
    apply Continuous.intervalIntegrable
    fun_prop
  have hle : ∀ t ∈ Set.Icc (0:ℝ) a,
      1 - t ^ 2 / 2 + t ^ 4 / 8 - t ^ 6 / 48 + -(5 / 1536) * t ^ 8
        ≤ Real.exp (-(t ^ 2) / 2) := by
    intro t ht
    have ht2 : t ^ 2 / 2 ≤ 1 := by nlinarith [ht.1, ht.2]
    exact exp_negsq_lower t ht2
  have h := intervalIntegral.integral_mono_on h0 hintp
    (hcont.intervalIntegrable 0 a) hle
  rwa [integral_deg8_poly a (-(5 / 1536))] at h

lemma integral_exp_negsq_upper (a : ℝ) (h0 : 0 ≤ a) (h1 : a ≤ 1) :
    (∫ t in (0:ℝ)..a, Real.exp (-(t ^ 2) / 2))
      ≤ a - a ^ 3 / 6 + a ^ 5 / 40 - a ^ 7 / 336 + 5 / 1536 * a ^ 9 / 9 := by
  have hcont : Continuous fun t : ℝ => Real.exp (-(t ^ 2) / 2) := by fun_prop
  have hintp : IntervalIntegrable
      (fun t : ℝ => 1 - t ^ 2 / 2 + t ^ 4 / 8 - t ^ 6 / 48 + 5 / 1536 * t ^ 8)
      volume 0 a := by
    apply Continuous.intervalIntegrable
    fun_prop
  have hle : ∀ t ∈ Set.Icc (0:ℝ) a,
      Real.exp (-(t ^ 2) / 2)
        ≤ 1 - t ^ 2 / 2 + t ^ 4 / 8 - t ^ 6 / 48 + 5 / 1536 * t ^ 8 := by
    intro t ht
    have ht2 : t ^ 2 / 2 ≤ 1 := by nlinarith [ht.1, ht.2]
    exact exp_negsq_upper t ht2
  have h := intervalIntegral.integral_mono_on h0
    (hcont.intervalIntegrable 0 a) hintp hle
  rwa [integral_deg8_poly a (5 / 1536)] at h

lemma normalCDF_eq_half_add (x : ℝ) :
    normalCDF x = 1 / 2
      + (Real.sqrt (2 * Real.pi))⁻¹ * ∫ t in (0:ℝ)..x, Real.exp (-(t ^ 2) / 2) := by
  rw [normalCDF_eq_add_intervalIntegral x, normalCDF_zero]
  congr 1
  simp only [stdNormalPDF]
  rw [intervalIntegral.integral_const_mul]

lemma inv_sqrt_two_pi_bounds :
    ((2.506629 : ℝ))⁻¹ ≤ (Real.sqrt (2 * Real.pi))⁻¹ ∧
    (Real.sqrt (2 * Real.pi))⁻¹ ≤ ((2.506627 : ℝ))⁻¹ := by
  have hpos : (0 : ℝ) < Real.sqrt (2 * Real.pi) :=
    lt_trans (by norm_num) sqrt_two_pi_lb
  constructor
  · exact inv_anti₀ hpos sqrt_two_pi_ub.le
  · exact inv_anti₀ (by norm_num) sqrt_two_pi_lb.le

lemma normalCDF_35_bounds :
    (0.636829 : ℝ) ≤ normalCDF 0.35 ∧ normalCDF 0.35 ≤ 0.636832 := by
  have hIl : (0.3429835 : ℝ) ≤ ∫ t in (0:ℝ)..(0.35:ℝ), Real.exp (-(t ^ 2) / 2) :=
    le_trans (by norm_num) (integral_exp_negsq_lower 0.35 (by norm_num) (by norm_num))
  have hIu : (∫ t in (0:ℝ)..(0.35:ℝ), Real.exp (-(t ^ 2) / 2)) ≤ 0.3429836 :=
    le_trans (integral_exp_negsq_upper 0.35 (by norm_num) (by norm_num)) (by norm_num)
  have hc := inv_sqrt_two_pi_bounds
  have hcpos : (0 : ℝ) ≤ (Real.sqrt (2 * Real.pi))⁻¹ :=
    le_trans (by norm_num) hc.1
  rw [normalCDF_eq_half_add]
  constructor
  · have h := mul_le_mul hc.1 hIl (by norm_num) hcpos
    calc (0.636829 : ℝ) ≤ 1 / 2 + (2.506629 : ℝ)⁻¹ * 0.3429835 := by norm_num
      _ ≤ _ := by linarith
  · have h := mul_le_mul hc.2 hIu (le_trans (by norm_num) hIl) (by norm_num)
    calc (1:ℝ) / 2 + (Real.sqrt (2 * Real.pi))⁻¹
          * ∫ t in (0:ℝ)..(0.35:ℝ), Real.exp (-(t ^ 2) / 2)
        ≤ 1 / 2 + (2.506627 : ℝ)⁻¹ * 0.3429836 := by linarith
      _ ≤ 0.636832 := by norm_num

lemma normalCDF_15_bounds :
    (0.559616 : ℝ) ≤ normalCDF 0.15 ∧ normalCDF 0.15 ≤ 0.559620 := by
  have hIl : (0.1494393 : ℝ) ≤ ∫ t in (0:ℝ)..(0.15:ℝ), Real.exp (-(t ^ 2) / 2) :=
    le_trans (by norm_num) (integral_exp_negsq_lower 0.15 (by norm_num) (by norm_num))
  have hIu : (∫ t in (0:ℝ)..(0.15:ℝ), Real.exp (-(t ^ 2) / 2)) ≤ 0.1494394 :=
    le_trans (integral_exp_negsq_upper 0.15 (by norm_num) (by norm_num)) (by norm_num)
  have hc := inv_sqrt_two_pi_bounds
  have hcpos : (0 : ℝ) ≤ (Real.sqrt (2 * Real.pi))⁻¹ :=
    le_trans (by norm_num) hc.1
  rw [normalCDF_eq_half_add]
  constructor
  · have h := mul_le_mul hc.1 hIl (by norm_num) hcpos
    calc (0.559616 : ℝ) ≤ 1 / 2 + (2.506629 : ℝ)⁻¹ * 0.1494393 := by norm_num
      _ ≤ _ := by linarith
  · have h := mul_le_mul hc.2 hIu (le_trans (by norm_num) hIl) (by norm_num)
    calc (1:ℝ) / 2 + (Real.sqrt (2 * Real.pi))⁻¹
          * ∫ t in (0:ℝ)..(0.15:ℝ), Real.exp (-(t ^ 2) / 2)
        ≤ 1 / 2 + (2.506627 : ℝ)⁻¹ * 0.1494394 := by linarith
      _ ≤ 0.559620 := by norm_num

lemma exp_neg_one_twentieth_bounds :
    (0.9512288 : ℝ) ≤ Real.exp (-(1 / 20)) ∧ Real.exp (-(1 / 20)) ≤ 0.9512295 := by
  obtain ⟨hl, hu⟩ := exp_neg_series_bounds (1 / 20) (by norm_num) (by norm_num)
  constructor
  · exact le_trans (by norm_num) hl
  · exact le_trans hu (by norm_num)

/-- C8: at `S = 100`, `K = 100`, `T = 1`, `r = 0.05`, `sigma = 0.2` the call
price returned by `black_scholes` is within `0.001` of the reference value
`10.4506`. -/
theorem claim_C8 : ∃ c : ℝ,
    black_scholes 100 100 1 0.05 0.2 callStr = Except.ok c ∧
    |c - 10.4506| ≤ 0.001 := by
  refine ⟨_, black_scholes_call_eq 100 100 1 0.05 0.2, ?_⟩
  have hd1 : bs_d1 100 100 1 0.05 0.2 = 0.35 := by
    rw [bs_d1, show (100:ℝ)/100 = 1 by norm_num, Real.log_one, Real.sqrt_one]
    norm_num
  have hd2 : bs_d2 100 100 1 0.05 0.2 = 0.15 := by
    rw [bs_d2, hd1, Real.sqrt_one]
    norm_num
  rw [hd1, hd2]
  have hE : Real.exp (-(0.05:ℝ) * 1) = Real.exp (-(1 / 20)) := by
    norm_num
  rw [hE]
  obtain ⟨h35l, h35u⟩ := normalCDF_35_bounds
  obtain ⟨h15l, h15u⟩ := normalCDF_15_bounds
  obtain ⟨hEl, hEu⟩ := exp_neg_one_twentieth_bounds
  have hE0 : (0:ℝ) ≤ Real.exp (-(1 / 20)) := (Real.exp_pos _).le
  have h15n : (0:ℝ) ≤ normalCDF 0.15 := normalCDF_nonneg _
  have hp1 : (0.9512288 : ℝ) * 0.559616 ≤ Real.exp (-(1 / 20)) * normalCDF 0.15 :=
    mul_le_mul hEl h15l (by norm_num) hE0
  have hp2 : Real.exp (-(1 / 20)) * normalCDF 0.15 ≤ (0.9512295 : ℝ) * 0.559620 :=
    mul_le_mul hEu h15u h15n (by norm_num)
  rw [abs_le]
  constructor
  · nlinarith [h35l, hp2]
  · nlinarith [h35u, hp1]
